import Mathlib

/-!
Shallow embedding of `src/src/main.rs` (a single-endpoint geolocation proxy
with a per-client TTL cache and a per-client sliding 24-hour rate limit),
together with proofs of the specification's claims about it.

Modelling conventions:
* Timestamps (`chrono::DateTime<Utc>`) are integers (seconds); `chrono`
  durations are integer second counts (`Duration::days(1)` is a fixed
  86400-second span, `Duration::hours(h)` is `h * 3600`).
* The `f64` coordinate and accuracy values are carried through the handler
  without any arithmetic being performed on them, so they are modelled by
  an opaque integer carrier type.
* The two `DashMap` stores are total functions from keys; the rate-limit
  map's `entry(ip).or_default()` makes an absent key equal to the empty
  list, so `RateLimitStore` maps every key to a list directly.
* The upstream HTTP call is the only effect outside the process; its
  outcome is passed to the handler as an explicit `UpstreamOutcome`
  parameter.  The handler output records whether the upstream call was
  reached (`upstreamCalled`), mirroring the position of the `send()` call
  in the source.
* `DashMap`'s `entry` API holds the shard lock for the lifetime of the
  returned guard, so the prune/check/append block (main.rs lines 108-116)
  executes atomically per key; concurrent executions therefore linearize
  into some serial order of that atomic step, which is how the
  concurrency claim is stated below.
-/

namespace GeoProxy

/-- Client identity: `addr.ip().to_string()` in the source. -/
abbrev ClientKey := String

/-- A point in time, in seconds (models `chrono::DateTime<Utc>`). -/
abbrev Timestamp := Int

/-- `chrono::Duration::hours(1)` in seconds. -/
def hourSecs : Int := 3600

/-- `chrono::Duration::days(1)` in seconds: a fixed 24-hour span. -/
def daySecs : Int := 24 * hourSecs

/-- Opaque carrier for the source's `f64` values (`lat`, `lon`,
`accuracy`); the handler never computes with them, only moves them. -/
abbrev FloatVal := Int

/-- `struct LocationResponse { lat: f64, lon: f64 }` (main.rs lines 47-51). -/
structure LocationResponse where
  lat : FloatVal
  lon : FloatVal
deriving DecidableEq, Repr

/-- `struct GoogleLocation { lat: f64, lng: f64 }` (main.rs lines 41-45). -/
structure GoogleLocation where
  lat : FloatVal
  lng : FloatVal
deriving DecidableEq, Repr

/-- `struct GoogleGeoResponse { location, accuracy }` (main.rs lines 35-39). -/
structure GoogleGeoResponse where
  location : GoogleLocation
  accuracy : FloatVal
deriving DecidableEq, Repr

/-- `struct CacheEntry { response, timestamp }` (main.rs lines 53-57). -/
structure CacheEntry where
  response : LocationResponse
  timestamp : Timestamp
deriving DecidableEq, Repr

/-- `type RateLimitStore = Arc<DashMap<String, Vec<DateTime<Utc>>>>`
(main.rs line 59); `entry(ip).or_default()` identifies an absent key with
the empty list. -/
abbrev RateLimitStore := ClientKey → List Timestamp

/-- `type CacheStore = Arc<DashMap<String, CacheEntry>>` (main.rs line 60). -/
abbrev CacheStore := ClientKey → Option CacheEntry

/-- `struct AppConfig` (main.rs lines 62-67): `cache_ttl` is
`Duration::hours(cache_ttl_hours)` in seconds; `max_requests_per_day` is a
`usize`. -/
structure AppConfig where
  cache_ttl : Int
  max_requests_per_day : Nat
  google_api_key : String

/-- `enum GeoError` (main.rs lines 69-77). -/
inductive GeoError where
  | RateLimited
  | GoogleApi (msg : String)
  | Internal (msg : String)
deriving DecidableEq, Repr

/-- The `thiserror`-derived `Display` of `GeoError` (main.rs lines 71-76). -/
def GeoError.display : GeoError → String
  | .RateLimited => "Rate limit exceeded"
  | .GoogleApi e => "Google API error: " ++ e
  | .Internal e => "Internal error: " ++ e

/-- `impl Into<(StatusCode, String)> for GeoError` (main.rs lines 79-87):
`RateLimited` uses `self.to_string()`, the other two variants surface the
inner string directly. -/
def GeoError.toResponse : GeoError → Nat × String
  | .RateLimited => (429, GeoError.RateLimited.display)
  | .GoogleApi e => (502, e)
  | .Internal e => (500, e)

/-- Outcome of the single outbound HTTP call, as the handler observes it:
`send()` fails (`transportError`), the status is a success but the body
does not decode (`decodeError`), the status is not a success
(`apiError`, carrying `format!("\x7b\x7d", status)`), or a decoded
success (`success`). -/
inductive UpstreamOutcome where
  | transportError (msg : String)
  | decodeError (msg : String)
  | apiError (statusText : String)
  | success (geo : GoogleGeoResponse)
deriving DecidableEq, Repr

/-- Result of the sliding-window admission step. -/
inductive AdmitResult where
  | Admitted
  | Denied
deriving DecidableEq, Repr

/-- `entry.retain(|t| *t + Duration::days(1) > now)` (main.rs line 109):
keep exactly the timestamps still inside the trailing 24-hour window. -/
def prune (now : Timestamp) (ts : List Timestamp) : List Timestamp :=
  ts.filter (fun t => decide (t + daySecs > now))

/-- Pointwise update of the rate-limit map (the effect of writing through
the `DashMap` entry guard for one key). -/
def updateRL (s : RateLimitStore) (k : ClientKey) (l : List Timestamp) :
    RateLimitStore :=
  fun k' => if k' = k then l else s k'

/-- The atomic per-key admission step, main.rs lines 108-116: prune the
stored list in place, deny if the pruned length reaches the quota
(leaving the pruned list stored), otherwise append `now` and admit.  The
`DashMap` entry guard makes this one atomic step per key. -/
def tryAdmit (cfg : AppConfig) (store : RateLimitStore) (key : ClientKey)
    (now : Timestamp) : AdmitResult × RateLimitStore :=
  let pruned := prune now (store key)
  if pruned.length ≥ cfg.max_requests_per_day then
    (.Denied, updateRL store key pruned)
  else
    (.Admitted, updateRL store key (pruned ++ [now]))

/-- The two shared stores, as one state value. -/
structure HandlerState where
  rateLimit : RateLimitStore
  cache : CacheStore

/-- The handler's observable result: `Ok(Json(response))` or
`Err((status, body))`. -/
inductive HandlerResult where
  | ok (resp : LocationResponse)
  | err (response : Nat × String)
deriving DecidableEq, Repr

/-- One handler execution: its result, the stores afterwards, and whether
control reached the outbound `send()` call. -/
structure HandlerOutput where
  result : HandlerResult
  state : HandlerState
  upstreamCalled : Bool

/-- Pointwise update of the cache map (`cache_store.insert`,
main.rs lines 145-151). -/
def updateCache (s : CacheStore) (k : ClientKey) (e : CacheEntry) :
    CacheStore :=
  fun k' => if k' = k then some e else s k'

/-- main.rs lines 126-158: the upstream call and everything after it,
given the state `st1` in which the admission timestamp is already
recorded.  A transport or decode failure maps to `GeoError::Internal`, a
non-success status to `GeoError::GoogleApi`; a decoded success is written
through to the cache with `timestamp = now` and returned. -/
def handle_geo_upstream (st1 : HandlerState) (ip : ClientKey)
    (now : Timestamp) (outcome : UpstreamOutcome) : HandlerOutput :=
  match outcome with
  | .transportError e =>
      { result := .err (GeoError.Internal e).toResponse, state := st1,
        upstreamCalled := true }
  | .decodeError e =>
      { result := .err (GeoError.Internal e).toResponse, state := st1,
        upstreamCalled := true }
  | .apiError s =>
      { result := .err (GeoError.GoogleApi s).toResponse, state := st1,
        upstreamCalled := true }
  | .success geo =>
      let response : LocationResponse :=
        { lat := geo.location.lat, lon := geo.location.lng }
      { result := .ok response,
        state :=
          { st1 with
            cache := updateCache st1.cache ip
              { response := response, timestamp := now } },
        upstreamCalled := true }

/-- main.rs lines 107-158: everything after the cache check.  The
admission step runs first (atomically, lines 108-116); on denial the
handler returns 429 with the pruned list left stored and the upstream
call never attempted; on admission `now` is recorded before the upstream
call is made. -/
def handle_geo_afterCache (cfg : AppConfig) (st : HandlerState)
    (ip : ClientKey) (now : Timestamp) (outcome : UpstreamOutcome) :
    HandlerOutput :=
  let step := tryAdmit cfg st.rateLimit ip now
  match step.1 with
  | .Denied =>
      { result := .err GeoError.RateLimited.toResponse,
        state := { st with rateLimit := step.2 },
        upstreamCalled := false }
  | .Admitted =>
      handle_geo_upstream { st with rateLimit := step.2 } ip now outcome

/-- `handle_geo` (main.rs lines 89-159): cache check first (lines
100-105) — a present entry with `entry.timestamp + cache_ttl > now` is
returned immediately with no other effect; otherwise the request falls
through to the rate limiter and upstream call. -/
def handle_geo (cfg : AppConfig) (st : HandlerState) (ip : ClientKey)
    (now : Timestamp) (outcome : UpstreamOutcome) : HandlerOutput :=
  match st.cache ip with
  | some entry =>
      if entry.timestamp + cfg.cache_ttl > now then
        { result := .ok entry.response, state := st, upstreamCalled := false }
      else
        handle_geo_afterCache cfg st ip now outcome
  | none => handle_geo_afterCache cfg st ip now outcome

/-- A serialized sequence of admission attempts for one key (the
linearization of concurrent requests through the atomic per-key step):
the list of decisions and the final store. -/
def admitSeq (cfg : AppConfig) (store : RateLimitStore) (key : ClientKey) :
    List Timestamp → List AdmitResult × RateLimitStore
  | [] => ([], store)
  | t :: rest =>
      let step := tryAdmit cfg store key t
      let tail := admitSeq cfg step.2 key rest
      (step.1 :: tail.1, tail.2)

/-- Number of `Admitted` decisions in a list of admission results. -/
def countAdmitted : List AdmitResult → Nat
  | [] => 0
  | .Admitted :: rs => countAdmitted rs + 1
  | .Denied :: rs => countAdmitted rs

/-- Number of `Denied` decisions in a list of admission results. -/
def countDenied : List AdmitResult → Nat
  | [] => 0
  | .Admitted :: rs => countDenied rs
  | .Denied :: rs => countDenied rs + 1

/-! Helper lemmas about `prune`, the admission step, and the handler
factoring.  These are shared infrastructure; the claim theorems follow. -/

theorem prune_mem (now t : Timestamp) (l : List Timestamp) :
    t ∈ prune now l ↔ t ∈ l ∧ t + daySecs > now := by
  simp [prune]

theorem prune_length_le (now : Timestamp) (l : List Timestamp) :
    (prune now l).length ≤ l.length :=
  List.length_filter_le _ _

theorem prune_eq_self (now : Timestamp) (l : List Timestamp)
    (h : ∀ t ∈ l, t + daySecs > now) : prune now l = l := by
  unfold prune
  rw [List.filter_eq_self]
  intro a ha
  exact decide_eq_true (h a ha)

theorem updateRL_same (s : RateLimitStore) (k : ClientKey)
    (l : List Timestamp) : updateRL s k l k = l := by
  simp [updateRL]

theorem updateRL_other (s : RateLimitStore) (k k' : ClientKey)
    (l : List Timestamp) (h : k' ≠ k) : updateRL s k l k' = s k' := by
  simp [updateRL, h]

theorem countAdmitted_append (a b : List AdmitResult) :
    countAdmitted (a ++ b) = countAdmitted a + countAdmitted b := by
  induction a with
  | nil => simp [countAdmitted]
  | cons x xs ih =>
    cases x
    · simp only [List.cons_append, countAdmitted, List.append_eq, ih]; omega
    · simp only [List.cons_append, countAdmitted, List.append_eq, ih]

theorem countDenied_append (a b : List AdmitResult) :
    countDenied (a ++ b) = countDenied a + countDenied b := by
  induction a with
  | nil => simp [countDenied]
  | cons x xs ih =>
    cases x
    · simp only [List.cons_append, countDenied, List.append_eq, ih]
    · simp only [List.cons_append, countDenied, List.append_eq, ih]; omega

theorem countAdmitted_replicate_admitted (n : Nat) :
    countAdmitted (List.replicate n .Admitted) = n := by
  induction n with
  | zero => rfl
  | succ n ih => simp [List.replicate_succ, countAdmitted, ih]

theorem countAdmitted_replicate_denied (n : Nat) :
    countAdmitted (List.replicate n .Denied) = 0 := by
  induction n with
  | zero => rfl
  | succ n ih => simp [List.replicate_succ, countAdmitted, ih]

theorem countDenied_replicate_admitted (n : Nat) :
    countDenied (List.replicate n .Admitted) = 0 := by
  induction n with
  | zero => rfl
  | succ n ih => simp [List.replicate_succ, countDenied, ih]

theorem countDenied_replicate_denied (n : Nat) :
    countDenied (List.replicate n .Denied) = n := by
  induction n with
  | zero => rfl
  | succ n ih => simp [List.replicate_succ, countDenied, ih]

theorem tryAdmit_denied (cfg : AppConfig) (store : RateLimitStore)
    (key : ClientKey) (now : Timestamp)
    (h : cfg.max_requests_per_day ≤ (prune now (store key)).length) :
    tryAdmit cfg store key now =
      (.Denied, updateRL store key (prune now (store key))) := by
  simp [tryAdmit, h]

theorem tryAdmit_admitted (cfg : AppConfig) (store : RateLimitStore)
    (key : ClientKey) (now : Timestamp)
    (h : (prune now (store key)).length < cfg.max_requests_per_day) :
    tryAdmit cfg store key now =
      (.Admitted, updateRL store key (prune now (store key) ++ [now])) := by
  simp [tryAdmit, Nat.not_le.mpr h]

theorem afterCache_denied (cfg : AppConfig) (st : HandlerState)
    (ip : ClientKey) (now : Timestamp) (o : UpstreamOutcome)
    (h : cfg.max_requests_per_day ≤ (prune now (st.rateLimit ip)).length) :
    handle_geo_afterCache cfg st ip now o =
      { result := .err (429, "Rate limit exceeded"),
        state :=
          { st with
            rateLimit := updateRL st.rateLimit ip (prune now (st.rateLimit ip)) },
        upstreamCalled := false } := by
  simp [handle_geo_afterCache, tryAdmit_denied cfg st.rateLimit ip now h,
    GeoError.toResponse, GeoError.display]

theorem afterCache_admitted (cfg : AppConfig) (st : HandlerState)
    (ip : ClientKey) (now : Timestamp) (o : UpstreamOutcome)
    (h : (prune now (st.rateLimit ip)).length < cfg.max_requests_per_day) :
    handle_geo_afterCache cfg st ip now o =
      handle_geo_upstream
        { st with
          rateLimit :=
            updateRL st.rateLimit ip (prune now (st.rateLimit ip) ++ [now]) }
        ip now o := by
  simp [handle_geo_afterCache, tryAdmit_admitted cfg st.rateLimit ip now h]

theorem handle_geo_hit (cfg : AppConfig) (st : HandlerState) (ip : ClientKey)
    (now : Timestamp) (o : UpstreamOutcome) (e : CacheEntry)
    (hc : st.cache ip = some e) (hf : now < e.timestamp + cfg.cache_ttl) :
    handle_geo cfg st ip now o =
      { result := .ok e.response, state := st, upstreamCalled := false } := by
  simp [handle_geo, hc, hf]

theorem handle_geo_miss (cfg : AppConfig) (st : HandlerState) (ip : ClientKey)
    (now : Timestamp) (o : UpstreamOutcome)
    (hmiss : ∀ e, st.cache ip = some e → e.timestamp + cfg.cache_ttl ≤ now) :
    handle_geo cfg st ip now o = handle_geo_afterCache cfg st ip now o := by
  unfold handle_geo
  cases hc : st.cache ip with
  | none => rfl
  | some e => simp [not_lt.mpr (hmiss e hc)]

theorem upstream_called (st1 : HandlerState) (ip : ClientKey)
    (now : Timestamp) (o : UpstreamOutcome) :
    (handle_geo_upstream st1 ip now o).upstreamCalled = true ∧
    (handle_geo_upstream st1 ip now o).state.rateLimit = st1.rateLimit := by
  cases o <;> simp [handle_geo_upstream]

theorem admitSeq_cons (cfg : AppConfig) (store : RateLimitStore)
    (key : ClientKey) (t : Timestamp) (rest : List Timestamp) :
    admitSeq cfg store key (t :: rest) =
      ((tryAdmit cfg store key t).1 ::
        (admitSeq cfg (tryAdmit cfg store key t).2 key rest).1,
       (admitSeq cfg (tryAdmit cfg store key t).2 key rest).2) := by
  simp [admitSeq]

/-- Shape of a serialized run of admission attempts: when the stored list
`p` and every attempt timestamp stay inside each attempt's 24-hour
window, the first `maxCount - p.length` attempts are admitted and every
later one is denied, in order. -/
theorem admitSeq_shape (cfg : AppConfig) (key : ClientKey)
    (ts : List Timestamp) :
    ∀ (p : List Timestamp) (store : RateLimitStore),
      store key = p →
      (∀ t ∈ p, ∀ s ∈ ts, t + daySecs > s) →
      (∀ s₁ ∈ ts, ∀ s₂ ∈ ts, s₁ + daySecs > s₂) →
      (admitSeq cfg store key ts).1 =
        List.replicate (min ts.length (cfg.max_requests_per_day - p.length))
          .Admitted ++
        List.replicate (ts.length - (cfg.max_requests_per_day - p.length))
          .Denied := by
  induction ts with
  | nil => intro p store _ _ _; simp [admitSeq]
  | cons t rest ih =>
    intro p store hstore hwp hwts
    have hpr : prune t (store key) = p := by
      rw [hstore]
      exact prune_eq_self t p (fun x hx => hwp x hx t (by simp))
    by_cases hq : cfg.max_requests_per_day ≤ p.length
    · have hstep : tryAdmit cfg store key t =
          (.Denied, updateRL store key p) := by
        have := tryAdmit_denied cfg store key t (by rw [hpr]; exact hq)
        rwa [hpr] at this
      have hrec := ih p (updateRL store key p) (updateRL_same _ _ _)
        (fun x hx s hs => hwp x hx s (by simp [hs]))
        (fun a ha b hb => hwts a (by simp [ha]) b (by simp [hb]))
      rw [admitSeq_cons, hstep]
      simp only [hrec]
      have hz : cfg.max_requests_per_day - p.length = 0 := by omega
      simp [hz, List.replicate_succ]
    · push_neg at hq
      have hstep : tryAdmit cfg store key t =
          (.Admitted, updateRL store key (p ++ [t])) := by
        have := tryAdmit_admitted cfg store key t (by rw [hpr]; exact hq)
        rwa [hpr] at this
      have hrec := ih (p ++ [t]) (updateRL store key (p ++ [t]))
        (updateRL_same _ _ _)
        (by
          intro x hx s hs
          rcases List.mem_append.mp hx with hx' | hx'
          · exact hwp x hx' s (by simp [hs])
          · have : x = t := by simpa using hx'
            subst this
            exact hwts x (by simp) s (by simp [hs]))
        (fun a ha b hb => hwts a (by simp [ha]) b (by simp [hb]))
      rw [admitSeq_cons, hstep]
      simp only [hrec]
      have hlen : (p ++ [t]).length = p.length + 1 := by simp
      rw [hlen]
      have hm1 : min (rest.length + 1) (cfg.max_requests_per_day - p.length) =
          min rest.length (cfg.max_requests_per_day - (p.length + 1)) + 1 := by
        omega
      have hm2 : rest.length + 1 - (cfg.max_requests_per_day - p.length) =
          rest.length - (cfg.max_requests_per_day - (p.length + 1)) := by
        omega
      simp only [List.length_cons, hm1, hm2, List.replicate_succ,
        List.cons_append]

theorem updateCache_same (s : CacheStore) (k : ClientKey) (e : CacheEntry) :
    updateCache s k e k = some e := by
  simp [updateCache]

theorem updateCache_other (s : CacheStore) (k k' : ClientKey)
    (e : CacheEntry) (h : k' ≠ k) : updateCache s k e k' = s k' := by
  simp [updateCache, h]

/-- Trichotomy of one handler execution: fresh cache hit, cache miss then
denial, or cache miss then admission followed by the upstream call. -/
theorem handle_geo_cases (cfg : AppConfig) (st : HandlerState)
    (ip : ClientKey) (now : Timestamp) (o : UpstreamOutcome) :
    (∃ e, st.cache ip = some e ∧ now < e.timestamp + cfg.cache_ttl ∧
      handle_geo cfg st ip now o =
        { result := .ok e.response, state := st, upstreamCalled := false }) ∨
    ((∀ e, st.cache ip = some e → e.timestamp + cfg.cache_ttl ≤ now) ∧
      cfg.max_requests_per_day ≤ (prune now (st.rateLimit ip)).length ∧
      handle_geo cfg st ip now o =
        { result := .err (429, "Rate limit exceeded"),
          state :=
            { st with
              rateLimit :=
                updateRL st.rateLimit ip (prune now (st.rateLimit ip)) },
          upstreamCalled := false }) ∨
    ((∀ e, st.cache ip = some e → e.timestamp + cfg.cache_ttl ≤ now) ∧
      (prune now (st.rateLimit ip)).length < cfg.max_requests_per_day ∧
      handle_geo cfg st ip now o =
        handle_geo_upstream
          { st with
            rateLimit :=
              updateRL st.rateLimit ip (prune now (st.rateLimit ip) ++ [now]) }
          ip now o) := by
  by_cases hhit : ∃ e, st.cache ip = some e ∧ now < e.timestamp + cfg.cache_ttl
  · obtain ⟨e, hc, hf⟩ := hhit
    exact Or.inl ⟨e, hc, hf, handle_geo_hit cfg st ip now o e hc hf⟩
  · push_neg at hhit
    have hmiss : ∀ e, st.cache ip = some e →
        e.timestamp + cfg.cache_ttl ≤ now := hhit
    by_cases hq : cfg.max_requests_per_day ≤ (prune now (st.rateLimit ip)).length
    · exact Or.inr (Or.inl ⟨hmiss, hq, by
        rw [handle_geo_miss cfg st ip now o hmiss,
          afterCache_denied cfg st ip now o hq]⟩)
    · push_neg at hq
      exact Or.inr (Or.inr ⟨hmiss, hq, by
        rw [handle_geo_miss cfg st ip now o hmiss,
          afterCache_admitted cfg st ip now o hq]⟩)

/-- The cache map is untouched by any execution whose upstream outcome is
not a decoded success. -/
theorem handle_geo_cache_nonsuccess (cfg : AppConfig) (st : HandlerState)
    (ip : ClientKey) (now : Timestamp) (o : UpstreamOutcome)
    (ho : ∀ geo, o ≠ .success geo) :
    (handle_geo cfg st ip now o).state.cache = st.cache := by
  rcases handle_geo_cases cfg st ip now o with
    ⟨e, _, _, hh⟩ | ⟨_, _, hh⟩ | ⟨_, _, hh⟩ <;> rw [hh]
  cases o with
  | transportError m => rfl
  | decodeError m => rfl
  | apiError s => rfl
  | success geo => exact absurd rfl (ho geo)

/-! The claim theorems. -/

/-- C3: Cache freshness boundary — for a key whose cache entry was
written at `t0 = e.timestamp`, a lookup at `t1 < t0 + TTL` returns the
cached entry with a 200 and no other effect, and a lookup at
`t1 ≥ t0 + TTL` is a miss: the handler proceeds exactly as the
post-cache path (rate limiter onwards). -/
theorem cache_freshness_boundary (cfg : AppConfig) (st : HandlerState)
    (ip : ClientKey) (t1 : Timestamp) (e : CacheEntry) (o : UpstreamOutcome)
    (hc : st.cache ip = some e) :
    (t1 < e.timestamp + cfg.cache_ttl →
      handle_geo cfg st ip t1 o =
        { result := .ok e.response, state := st, upstreamCalled := false }) ∧
    (e.timestamp + cfg.cache_ttl ≤ t1 →
      handle_geo cfg st ip t1 o = handle_geo_afterCache cfg st ip t1 o) := by
  constructor
  · intro h
    exact handle_geo_hit cfg st ip t1 o e hc h
  · intro h
    exact handle_geo_miss cfg st ip t1 o (fun e' he' => by
      rw [hc] at he'; cases he'; exact h)

/-- Witness for C3 at TTL = 12 hours, entry written at time 0, lookup at
time 10. -/
theorem cache_freshness_boundary_witness :
    handle_geo ⟨43200, 2, "k"⟩
        ⟨fun _ => [], fun _ => some ⟨⟨1, 2⟩, 0⟩⟩ "a" 10 (.transportError "x") =
      { result := .ok ⟨1, 2⟩,
        state := ⟨fun _ => [], fun _ => some ⟨⟨1, 2⟩, 0⟩⟩,
        upstreamCalled := false } :=
  (cache_freshness_boundary ⟨43200, 2, "k"⟩
      ⟨fun _ => [], fun _ => some ⟨⟨1, 2⟩, 0⟩⟩ "a" 10 ⟨⟨1, 2⟩, 0⟩
      (.transportError "x") rfl).1 (by decide)

/-- C6: Denial semantics of the admission step — at or above the quota
the step returns `Denied`, stores the pruned list, and does not append
`now`; below the quota it appends `now`, stores the result and returns
`Admitted`; other keys are never touched. -/
theorem tryAdmit_denial_semantics (cfg : AppConfig) (store : RateLimitStore)
    (key : ClientKey) (now : Timestamp) :
    (cfg.max_requests_per_day ≤ (prune now (store key)).length →
      (tryAdmit cfg store key now).1 = .Denied ∧
      (tryAdmit cfg store key now).2 key = prune now (store key) ∧
      ∀ k, k ≠ key → (tryAdmit cfg store key now).2 k = store k) ∧
    ((prune now (store key)).length < cfg.max_requests_per_day →
      (tryAdmit cfg store key now).1 = .Admitted ∧
      (tryAdmit cfg store key now).2 key = prune now (store key) ++ [now] ∧
      ∀ k, k ≠ key → (tryAdmit cfg store key now).2 k = store k) := by
  constructor
  · intro h
    rw [tryAdmit_denied cfg store key now h]
    exact ⟨rfl, updateRL_same _ _ _, fun k hk => updateRL_other _ _ _ _ hk⟩
  · intro h
    rw [tryAdmit_admitted cfg store key now h]
    exact ⟨rfl, updateRL_same _ _ _, fun k hk => updateRL_other _ _ _ _ hk⟩

/-- Witness for C6 with quota 0 and an empty stored list: the attempt is
denied, the stored list stays empty, and another key is unaffected. -/
theorem tryAdmit_denial_semantics_witness :
    (tryAdmit ⟨43200, 0, "k"⟩ (fun _ => []) "a" 5).1 = .Denied ∧
    (tryAdmit ⟨43200, 0, "k"⟩ (fun _ => []) "a" 5).2 "a" = prune 5 [] ∧
    (tryAdmit ⟨43200, 0, "k"⟩ (fun _ => []) "a" 5).2 "b" = [] := by
  have h := (tryAdmit_denial_semantics ⟨43200, 0, "k"⟩ (fun _ => []) "a" 5).1
    (by decide)
  exact ⟨h.1, h.2.1, h.2.2 "b" (by decide)⟩

/-- C8: Cache-hit frame — a request finding a fresh cache entry responds
200 with the cached result, leaves both stores exactly as they were,
never reaches the upstream call, and its entire output is independent of
the upstream outcome. -/
theorem cache_hit_frame (cfg : AppConfig) (st : HandlerState)
    (ip : ClientKey) (now : Timestamp) (o : UpstreamOutcome) (e : CacheEntry)
    (hc : st.cache ip = some e) (hf : now < e.timestamp + cfg.cache_ttl) :
    (handle_geo cfg st ip now o).result = .ok e.response ∧
    (handle_geo cfg st ip now o).state.rateLimit = st.rateLimit ∧
    (handle_geo cfg st ip now o).state.cache = st.cache ∧
    (handle_geo cfg st ip now o).upstreamCalled = false ∧
    ∀ o', handle_geo cfg st ip now o' = handle_geo cfg st ip now o := by
  have h := handle_geo_hit cfg st ip now o e hc hf
  refine ⟨by rw [h], by rw [h], by rw [h], by rw [h], fun o' => ?_⟩
  rw [h, handle_geo_hit cfg st ip now o' e hc hf]

/-- Witness for C8: a fresh cache hit at time 100 with TTL 12 hours. -/
theorem cache_hit_frame_witness :
    (handle_geo ⟨43200, 2, "k"⟩
        ⟨fun _ => [7], fun _ => some ⟨⟨3, 4⟩, 0⟩⟩ "a" 100
        (.apiError "500 Internal Server Error")).result = .ok ⟨3, 4⟩ ∧
    (handle_geo ⟨43200, 2, "k"⟩
        ⟨fun _ => [7], fun _ => some ⟨⟨3, 4⟩, 0⟩⟩ "a" 100
        (.apiError "500 Internal Server Error")).upstreamCalled = false := by
  have h := cache_hit_frame ⟨43200, 2, "k"⟩
    ⟨fun _ => [7], fun _ => some ⟨⟨3, 4⟩, 0⟩⟩ "a" 100
    (.apiError "500 Internal Server Error") ⟨⟨3, 4⟩, 0⟩ rfl (by decide)
  exact ⟨h.1, h.2.2.2.1⟩

/-- C9: Zero-quota edge case — with `max_requests_per_day = 0`, every
request that misses the cache (in particular any request from a key with
no state at all) is denied with 429 and the upstream call is never
reached, because an empty pruned list already has length `≥ 0`. -/
theorem zero_quota_all_denied (cfg : AppConfig) (st : HandlerState)
    (ip : ClientKey) (now : Timestamp) (o : UpstreamOutcome)
    (hmax : cfg.max_requests_per_day = 0)
    (hmiss : ∀ e, st.cache ip = some e → e.timestamp + cfg.cache_ttl ≤ now) :
    (handle_geo cfg st ip now o).result = .err (429, "Rate limit exceeded") ∧
    (handle_geo cfg st ip now o).upstreamCalled = false := by
  rw [handle_geo_miss cfg st ip now o hmiss,
    afterCache_denied cfg st ip now o (by rw [hmax]; exact Nat.zero_le _)]
  exact ⟨rfl, rfl⟩

/-- Witness for C9: a fresh key (no cache entry, no timestamps) under a
zero quota is denied immediately. -/
theorem zero_quota_all_denied_witness :
    (handle_geo ⟨43200, 0, "k"⟩ ⟨fun _ => [], fun _ => none⟩ "a" 0
        (.success ⟨⟨1, 2⟩, 5⟩)).result = .err (429, "Rate limit exceeded") ∧
    (handle_geo ⟨43200, 0, "k"⟩ ⟨fun _ => [], fun _ => none⟩ "a" 0
        (.success ⟨⟨1, 2⟩, 5⟩)).upstreamCalled = false :=
  zero_quota_all_denied ⟨43200, 0, "k"⟩ ⟨fun _ => [], fun _ => none⟩ "a" 0
    (.success ⟨⟨1, 2⟩, 5⟩) rfl (fun _ he => nomatch he)

/-- C1: Rate-limit sliding-window correctness — (i) for a key with quota
`N` and no prior state, a run of `N + 1` admission attempts whose
timestamps all lie within one rolling 24-hour window admits the first
`N` and denies the `(N+1)`-th; (ii) pruning retains exactly the
timestamps `t` with `t + 24h > now`; (iii) when the earliest stored
timestamp has aged past 24 hours and the rest have not, the pruned count
drops by exactly one, freeing exactly one unit of quota. -/
theorem rate_limit_sliding_window (cfg : AppConfig) (key : ClientKey)
    (N : Nat) (hmax : cfg.max_requests_per_day = N) :
    (∀ (ts : List Timestamp) (store : RateLimitStore),
      store key = [] → ts.length = N + 1 →
      (∀ s₁ ∈ ts, ∀ s₂ ∈ ts, s₁ + daySecs > s₂) →
      (admitSeq cfg store key ts).1 =
        List.replicate N .Admitted ++ [.Denied]) ∧
    (∀ (now t : Timestamp) (l : List Timestamp),
      t ∈ prune now l ↔ t ∈ l ∧ t + daySecs > now) ∧
    (∀ (now t0 : Timestamp) (rest : List Timestamp),
      t0 + daySecs ≤ now → (∀ t ∈ rest, t + daySecs > now) →
      (prune now (t0 :: rest)).length + 1 = (t0 :: rest).length) := by
  refine ⟨?_, fun now t l => prune_mem now t l, ?_⟩
  · intro ts store hempty hlen hwin
    have h := admitSeq_shape cfg key ts [] store hempty (by simp) hwin
    rw [h, hlen, hmax]
    have h1 : min (N + 1) (N - List.length ([] : List Timestamp)) = N := by
      simp only [List.length_nil, Nat.sub_zero]
      omega
    have h2 : N + 1 - (N - List.length ([] : List Timestamp)) = 1 := by
      simp only [List.length_nil, Nat.sub_zero]
      omega
    rw [h1, h2, List.replicate_one]
  · intro now t0 rest h0 hrest
    have hr : prune now rest = rest := prune_eq_self now rest hrest
    have hstep : prune now (t0 :: rest) = prune now rest := by
      unfold prune
      exact List.filter_cons_of_neg (by simp [not_lt.mpr h0])
    rw [hstep, hr, List.length_cons]

/-- Witness for C1: quota 2, a fresh key, three attempts at times 0,
3600 and 7200 (all inside one 24-hour window): the first two are
admitted and the third is denied. -/
theorem rate_limit_sliding_window_witness :
    (admitSeq ⟨43200, 2, "k"⟩ (fun _ => []) "1.2.3.4" [0, 3600, 7200]).1 =
      List.replicate 2 .Admitted ++ [.Denied] :=
  (rate_limit_sliding_window ⟨43200, 2, "k"⟩ "1.2.3.4" 2 rfl).1
    [0, 3600, 7200] (fun _ => []) rfl rfl (by decide)

/-- C2: Admission atomicity — the `DashMap` entry guard makes
prune-check-append one atomic step per key, so `M` concurrent attempts
linearize into some serial order of that step; for every such order,
when only `K < M` slots remain in the window (a stored in-window list of
length `maxCount - K`), exactly `K` attempts are admitted and `M - K`
are denied. -/
theorem admission_atomicity (cfg : AppConfig) (key : ClientKey)
    (M K : Nat) (ts p : List Timestamp) (store : RateLimitStore)
    (hstore : store key = p)
    (hM : ts.length = M)
    (_hp : p.length ≤ cfg.max_requests_per_day)
    (hK : K = cfg.max_requests_per_day - p.length)
    (hKM : K < M)
    (hwp : ∀ t ∈ p, ∀ s ∈ ts, t + daySecs > s)
    (hwts : ∀ s₁ ∈ ts, ∀ s₂ ∈ ts, s₁ + daySecs > s₂) :
    countAdmitted (admitSeq cfg store key ts).1 = K ∧
    countDenied (admitSeq cfg store key ts).1 = M - K := by
  have h := admitSeq_shape cfg key ts p store hstore hwp hwts
  rw [h, hM, ← hK]
  constructor
  · rw [countAdmitted_append, countAdmitted_replicate_admitted,
      countAdmitted_replicate_denied]
    omega
  · rw [countDenied_append, countDenied_replicate_admitted,
      countDenied_replicate_denied]
    omega

/-- Witness for C2: quota 2, one in-window timestamp already stored
(`K = 1` slot left), two attempts (`M = 2`): exactly one is admitted and
one is denied. -/
theorem admission_atomicity_witness :
    countAdmitted (admitSeq ⟨43200, 2, "k"⟩ (fun _ => [0]) "a" [10, 20]).1 = 1 ∧
    countDenied (admitSeq ⟨43200, 2, "k"⟩ (fun _ => [0]) "a" [10, 20]).1 = 1 :=
  admission_atomicity ⟨43200, 2, "k"⟩ "a" 2 1 [10, 20] [0] (fun _ => [0])
    rfl rfl (by decide) (by decide) (by decide) (by decide) (by decide)

/-- C4: Write-through on success only — a transport failure, a decode
failure, or a non-success provider status leaves the whole cache map
exactly as it was; a decoded success on a request that reached the
upstream call writes the returned coordinates into the cache for the
client key with `recordedAt = now`, and touches no other key. -/
theorem write_through_on_success_only (cfg : AppConfig) (st : HandlerState)
    (ip : ClientKey) (now : Timestamp) :
    (∀ m, (handle_geo cfg st ip now (.transportError m)).state.cache =
      st.cache) ∧
    (∀ m, (handle_geo cfg st ip now (.decodeError m)).state.cache =
      st.cache) ∧
    (∀ s, (handle_geo cfg st ip now (.apiError s)).state.cache =
      st.cache) ∧
    (∀ geo, (handle_geo cfg st ip now (.success geo)).upstreamCalled = true →
      (handle_geo cfg st ip now (.success geo)).state.cache ip =
        some { response := { lat := geo.location.lat, lon := geo.location.lng },
               timestamp := now } ∧
      ∀ k, k ≠ ip →
        (handle_geo cfg st ip now (.success geo)).state.cache k =
          st.cache k) := by
  refine ⟨?_, ?_, ?_, ?_⟩
  · intro m
    exact handle_geo_cache_nonsuccess cfg st ip now (.transportError m)
      (fun _ h => nomatch h)
  · intro m
    exact handle_geo_cache_nonsuccess cfg st ip now (.decodeError m)
      (fun _ h => nomatch h)
  · intro s
    exact handle_geo_cache_nonsuccess cfg st ip now (.apiError s)
      (fun _ h => nomatch h)
  · intro geo hcall
    rcases handle_geo_cases cfg st ip now (.success geo) with
      ⟨e, _, _, hh⟩ | ⟨_, _, hh⟩ | ⟨_, _, hh⟩
    · rw [hh] at hcall; simp at hcall
    · rw [hh] at hcall; simp at hcall
    · rw [hh]
      exact ⟨updateCache_same _ _ _, fun k hk => updateCache_other _ _ _ _ hk⟩

/-- Witness for C4 on an admitted cache miss: a transport failure leaves
the (empty) cache unchanged, and a success writes the result at the
client key with `recordedAt = now`. -/
theorem write_through_on_success_only_witness :
    (handle_geo ⟨43200, 2, "k"⟩ ⟨fun _ => [], fun _ => none⟩ "a" 9
        (.transportError "boom")).state.cache = (fun _ => none) ∧
    (handle_geo ⟨43200, 2, "k"⟩ ⟨fun _ => [], fun _ => none⟩ "a" 9
        (.success ⟨⟨1, 2⟩, 30⟩)).state.cache "a" =
      some { response := { lat := 1, lon := 2 }, timestamp := 9 } := by
  have h := write_through_on_success_only ⟨43200, 2, "k"⟩
    ⟨fun _ => [], fun _ => none⟩ "a" 9
  exact ⟨h.1 "boom", (h.2.2.2 ⟨⟨1, 2⟩, 30⟩ (by decide)).1⟩

/-- C5: Quota consumed regardless of outcome — whenever the upstream
call is reached, the whole execution factors through the upstream step
applied to a state in which `now` is already appended to the key's
pruned window, and for every outcome (failures included) `now` is still
recorded in the final rate-limit list for the key: no refund on
failure. -/
theorem quota_consumed_regardless (cfg : AppConfig) (st : HandlerState)
    (ip : ClientKey) (now : Timestamp) (o : UpstreamOutcome)
    (hcall : (handle_geo cfg st ip now o).upstreamCalled = true) :
    handle_geo cfg st ip now o =
      handle_geo_upstream
        { st with
          rateLimit :=
            updateRL st.rateLimit ip (prune now (st.rateLimit ip) ++ [now]) }
        ip now o ∧
    (handle_geo cfg st ip now o).state.rateLimit ip =
      prune now (st.rateLimit ip) ++ [now] ∧
    now ∈ (handle_geo cfg st ip now o).state.rateLimit ip := by
  rcases handle_geo_cases cfg st ip now o with
    ⟨e, _, _, hh⟩ | ⟨_, _, hh⟩ | ⟨_, _, hh⟩
  · rw [hh] at hcall; simp at hcall
  · rw [hh] at hcall; simp at hcall
  · refine ⟨hh, ?_, ?_⟩
    · rw [hh, (upstream_called _ ip now o).2]
      exact updateRL_same _ _ _
    · rw [hh, (upstream_called _ ip now o).2]
      show now ∈ updateRL st.rateLimit ip (prune now (st.rateLimit ip) ++ [now]) ip
      rw [updateRL_same]
      simp

/-- Witness for C5: a fresh key, admitted at time 7, upstream transport
failure: the timestamp 7 is still recorded for the key afterwards. -/
theorem quota_consumed_regardless_witness :
    (handle_geo ⟨43200, 2, "k"⟩ ⟨fun _ => [], fun _ => none⟩ "a" 7
        (.transportError "boom")).state.rateLimit "a" =
      prune 7 [] ++ [7] ∧
    (7 : Timestamp) ∈
      (handle_geo ⟨43200, 2, "k"⟩ ⟨fun _ => [], fun _ => none⟩ "a" 7
        (.transportError "boom")).state.rateLimit "a" := by
  have h := quota_consumed_regardless ⟨43200, 2, "k"⟩
    ⟨fun _ => [], fun _ => none⟩ "a" 7 (.transportError "boom") (by decide)
  exact ⟨h.2.1, h.2.2⟩

/-- C7: Error-to-status mapping — on a cache miss, a rate-limit denial
is surfaced as 429 whatever the upstream outcome would have been; an
admitted request maps a non-success provider status to 502 carrying the
upstream status text as the body, and a transport or decode failure to
500 carrying the error detail as the body; and the `Into` conversion of
`GeoError` is exactly the 429/502/500 table. -/
theorem error_status_mapping (cfg : AppConfig) (st : HandlerState)
    (ip : ClientKey) (now : Timestamp)
    (hmiss : ∀ e, st.cache ip = some e → e.timestamp + cfg.cache_ttl ≤ now) :
    (cfg.max_requests_per_day ≤ (prune now (st.rateLimit ip)).length →
      ∀ o, (handle_geo cfg st ip now o).result =
        .err GeoError.RateLimited.toResponse) ∧
    ((prune now (st.rateLimit ip)).length < cfg.max_requests_per_day →
      (∀ s, (handle_geo cfg st ip now (.apiError s)).result =
        .err (GeoError.GoogleApi s).toResponse) ∧
      (∀ m, (handle_geo cfg st ip now (.transportError m)).result =
        .err (GeoError.Internal m).toResponse) ∧
      (∀ m, (handle_geo cfg st ip now (.decodeError m)).result =
        .err (GeoError.Internal m).toResponse)) ∧
    GeoError.RateLimited.toResponse = (429, "Rate limit exceeded") ∧
    (∀ s, (GeoError.GoogleApi s).toResponse = (502, s)) ∧
    (∀ m, (GeoError.Internal m).toResponse = (500, m)) := by
  refine ⟨?_, ?_, rfl, fun s => rfl, fun m => rfl⟩
  · intro hq o
    rw [handle_geo_miss cfg st ip now o hmiss,
      afterCache_denied cfg st ip now o hq]
    rfl
  · intro hq
    refine ⟨fun s => ?_, fun m => ?_, fun m => ?_⟩ <;>
      (rw [handle_geo_miss cfg st ip now _ hmiss,
        afterCache_admitted cfg st ip now _ hq]; rfl)

/-- Witness for C7: a key with an exhausted window is answered 429; an
admitted fresh key maps a provider error status to 502 with the status
text as body. -/
theorem error_status_mapping_witness :
    (handle_geo ⟨43200, 1, "k"⟩ ⟨fun _ => [5], fun _ => none⟩ "a" 9
        (.success ⟨⟨1, 2⟩, 30⟩)).result =
      .err GeoError.RateLimited.toResponse ∧
    (handle_geo ⟨43200, 1, "k"⟩ ⟨fun _ => [], fun _ => none⟩ "b" 9
        (.apiError "403 Forbidden")).result =
      .err (GeoError.GoogleApi "403 Forbidden").toResponse := by
  refine ⟨?_, ?_⟩
  · exact (error_status_mapping ⟨43200, 1, "k"⟩ ⟨fun _ => [5], fun _ => none⟩
      "a" 9 (fun _ he => nomatch he)).1 (by decide) (.success ⟨⟨1, 2⟩, 30⟩)
  · exact ((error_status_mapping ⟨43200, 1, "k"⟩ ⟨fun _ => [], fun _ => none⟩
      "b" 9 (fun _ he => nomatch he)).2.1 (by decide)).1 "403 Forbidden"

/-- C10: Bounded-window invariant — under a fixed configuration, if
every key's stored timestamp list has length at most
`max_requests_per_day`, then after any handler execution this still
holds for every key: the denial path only shrinks a list and the
admission path appends one element only when the pruned length is
strictly below the maximum. -/
theorem bounded_window_invariant (cfg : AppConfig) (st : HandlerState)
    (ip : ClientKey) (now : Timestamp) (o : UpstreamOutcome)
    (hinv : ∀ k, (st.rateLimit k).length ≤ cfg.max_requests_per_day) :
    ∀ k, ((handle_geo cfg st ip now o).state.rateLimit k).length ≤
      cfg.max_requests_per_day := by
  intro k
  rcases handle_geo_cases cfg st ip now o with
    ⟨e, _, _, hh⟩ | ⟨_, _, hh⟩ | ⟨_, hq, hh⟩
  · rw [hh]
    exact hinv k
  · rw [hh]
    dsimp only
    by_cases hk : k = ip
    · subst hk
      rw [updateRL_same]
      exact le_trans (prune_length_le now (st.rateLimit k)) (hinv k)
    · rw [updateRL_other _ _ _ _ hk]
      exact hinv k
  · rw [hh, (upstream_called _ ip now o).2]
    dsimp only
    by_cases hk : k = ip
    · subst hk
      rw [updateRL_same, List.length_append, List.length_singleton]
      omega
    · rw [updateRL_other _ _ _ _ hk]
      exact hinv k

/-- Witness for C10: quota 2 with one stored timestamp per key; after an
admitted request that fails upstream, the key's list still has at most 2
entries. -/
theorem bounded_window_invariant_witness :
    ((handle_geo ⟨43200, 2, "k"⟩ ⟨fun _ => [3], fun _ => none⟩ "a" 9
        (.transportError "boom")).state.rateLimit "a").length ≤ 2 :=
  bounded_window_invariant ⟨43200, 2, "k"⟩ ⟨fun _ => [3], fun _ => none⟩
    "a" 9 (.transportError "boom")
    (fun _ => by show (1 : Nat) ≤ 2; decide) "a"

end GeoProxy
